import Mathlib

/-!
Verification of the AI-PLANT-DOC Flask backend (`src/app.py`) against its
natural-language specification.

Shallow embedding conventions:
* The MongoDB `users` collection is a `Store`: a list of records in insertion
  order plus a counter modelling store-assigned `_id` values.  `find_one`,
  `update_one` and `delete_one` act on the first matching record, as Mongo
  does for these single-document calls.
* bcrypt is modelled by its contract: `hashpw` pairs the plaintext with a
  salt, `checkpw` compares plaintexts; distinct salts give distinct hashes.
* A PyJWT token string is either a payload signed with some secret or an
  arbitrary non-token string (`garbage`).  `jwt_decode` fails `invalid` on a
  wrong secret or garbage and `expired` when the `exp` claim is in the past.
* Time is seconds as `Nat`; `timedelta(hours=2)` is 7200.
* A JSON body is a structure of `Option` fields (`none` = key absent).
  Accessing an absent key with `data[k]` raises `KeyError` in Python, which
  Flask surfaces as an unhandled 500; this is the `Resp.crash` outcome.
* An uploaded file's bytes either decode to an abstract `Image` or do not
  (`content = none`); `Image.open` raises on the latter (again `Resp.crash`).
* The CNN's logits for a decoded image are an abstract frozen function
  `scores : Image → Fin 10 → Int` fixed for the process lifetime;
  `torch.max(outputs, 1)` returns the first index of a maximal entry.
-/

/-- An HTTP response of a handler: `ok` is a 200 with a typed JSON body,
`err s m` is status `s` with body `{error: m}`, and `crash` is an unhandled
Python exception, surfaced by Flask as a 500 with no JSON error body. -/
inductive Resp (α : Type) where
  | ok (body : α)
  | err (status : Nat) (msg : String)
  | crash
deriving DecidableEq, Repr

/-- The HTTP status code of a response. -/
def Resp.status : Resp α → Nat
  | .ok _ => 200
  | .err s _ => s
  | .crash => 500

/-- A bcrypt hash, modelled by its contract: it determines the plaintext it
was derived from (for `checkpw`) and the random salt used. -/
structure BHash where
  pw : String
  salt : Nat
deriving DecidableEq, Repr

/-- `bcrypt.hashpw(pw, gensalt())`; the salt drawn by `gensalt` is a
parameter. -/
def hashpw (pw : String) (salt : Nat) : BHash := ⟨pw, salt⟩

/-- `bcrypt.checkpw(pw, h)`: verifies the plaintext against the hash. -/
def checkpw (pw : String) (h : BHash) : Bool := pw == h.pw

/-- A document of the `users` collection (`app.py` lines 164-171). -/
structure UserRec where
  _id : Nat
  name : String
  email : String
  password : BHash
  q1 : String
  q2 : String
  createdAt : Nat
deriving DecidableEq, Repr

/-- The `users` collection: records in insertion order, plus the next
store-assigned identifier. -/
structure Store where
  recs : List UserRec
  nextId : Nat
deriving DecidableEq, Repr

/-- `users.find_one({"email": e})`.  The argument is the value produced by
the route (`none` when the request field was absent, i.e. a null query that
matches no stored record, since every stored record carries an email). -/
def find_one (st : Store) (e : Option String) : Option UserRec :=
  st.recs.find? (fun u => some u.email == e)

/-- `users.update_one({"email": e}, {"$set": {"password": h}})`: replaces the
password of the first record whose email is `e`. -/
def update_one_password : List UserRec → String → BHash → List UserRec
  | [], _, _ => []
  | u :: rest, e, h =>
    if u.email = e then { u with password := h } :: rest
    else u :: update_one_password rest e h

/-- `users.delete_one({"_id": i})`: removes the first record with `_id = i`. -/
def delete_one_id : List UserRec → Nat → List UserRec
  | [], _ => []
  | u :: rest, i => if u._id = i then rest else u :: delete_one_id rest i

/-- JWT claims issued by `/login` (`app.py` lines 182-186). -/
structure Claims where
  userId : String
  name : String
  exp : Nat
deriving DecidableEq, Repr

/-- A string presented in the `Authorization` header: either a well-formed
token signed with some secret, or any other string. -/
inductive TokenStr where
  | signed (c : Claims) (secret : String)
  | garbage (s : String)
deriving DecidableEq, Repr

/-- Outcome of `jwt.decode`. -/
inductive DecodeResult where
  | ok (c : Claims)
  | expired
  | invalid
deriving DecidableEq, Repr

/-- `jwt.decode(t, secret, algorithms=["HS256"])` at current time `now`:
a malformed string or a wrong signing secret is `InvalidTokenError`; a
correctly signed token whose `exp` is before `now` is
`ExpiredSignatureError`. -/
def jwt_decode (t : TokenStr) (secret : String) (now : Nat) : DecodeResult :=
  match t with
  | .garbage _ => .invalid
  | .signed c s =>
    if s ≠ secret then .invalid
    else if c.exp < now then .expired
    else .ok c

/-- `ALLOWED_EXTENSIONS = {'png', 'jpg', 'jpeg'}` (`app.py` line 40). -/
def ALLOWED_EXTENSIONS : List (List Char) :=
  [['p','n','g'], ['j','p','g'], ['j','p','e','g']]

/-- Whether a character differs from `'.'` (the split predicate of
`rsplit('.', 1)`). -/
def notDot (c : Char) : Bool := c ≠ '.'

/-- The characters of `filename.rsplit('.', 1)[1]` when a dot is present:
the suffix after the last `'.'`. -/
def afterLastDot (f : List Char) : List Char :=
  (f.reverse.takeWhile notDot).reverse

/-- `allowed_file(filename)` (`app.py` lines 41-42): the filename contains a
dot and the lowercased part after the last dot is an allowed extension. -/
def allowed_file (f : List Char) : Bool :=
  f.contains '.' && ALLOWED_EXTENSIONS.contains ((afterLastDot f).map Char.toLower)

/-- The 10 class labels (`app.py` lines 77-82). -/
def classes : List String :=
  ["Tomato_Bacterial_Spot", "Tomato_Early_Blight", "Tomato_Leaf_Mold",
   "Tomato_Septoria_Spot", "Tomato_Yellow_Leaf_Curl", "Tomato_Healthy",
   "Potato_Early_Blight", "Potato_Late_Blight", "Potato_Healthy",
   "Corn_Common_Rust"]

/-- A static entry of the disease knowledge base. -/
structure DiseaseEntry where
  definition : String
  color : String
  health_status : String
deriving DecidableEq, Repr

/-- The `disease_info` mapping (`app.py` lines 109-120). -/
def disease_info : List (String × DiseaseEntry) :=
  [("Tomato_Bacterial_Spot", ⟨"Bacterial spots on leaves and fruits.", "red", "Unhealthy"⟩),
   ("Tomato_Early_Blight", ⟨"Fungal dark spots on older leaves.", "brown", "Unhealthy"⟩),
   ("Tomato_Leaf_Mold", ⟨"Yellow spots with mold under leaves.", "orange", "Unhealthy"⟩),
   ("Tomato_Septoria_Spot", ⟨"Gray-centered circular spots.", "gray", "Unhealthy"⟩),
   ("Tomato_Yellow_Leaf_Curl", ⟨"Curling and yellowing of leaves.", "yellow", "Unhealthy"⟩),
   ("Tomato_Healthy", ⟨"Healthy tomato leaf.", "green", "Healthy"⟩),
   ("Potato_Early_Blight", ⟨"Brown spots with rings on leaves.", "brown", "Unhealthy"⟩),
   ("Potato_Late_Blight", ⟨"Rapid lesions on leaves and stems.", "darkred", "Unhealthy"⟩),
   ("Potato_Healthy", ⟨"Healthy potato foliage.", "green", "Healthy"⟩),
   ("Corn_Common_Rust", ⟨"Red-brown pustules on corn leaves.", "red", "Unhealthy"⟩)]

/-- `disease_info.get(k, {...default...})` (`app.py` lines 143-147). -/
def disease_info_get (k : String) : DiseaseEntry :=
  match disease_info.find? (fun p => p.1 == k) with
  | some p => p.2
  | none => ⟨"Unknown disease.", "gray", "Unknown"⟩

/-- A decoded RGB image, abstract. -/
abbrev Image := Nat

/-- `argmaxAux f l best` folds over candidate indices keeping the first index
of maximal score seen so far (strict `>` keeps the earlier index on ties). -/
def argmaxAux (f : Fin 10 → Int) : List (Fin 10) → Fin 10 → Fin 10
  | [], best => best
  | i :: rest, best => argmaxAux f rest (if f best < f i then i else best)

/-- `torch.max(outputs, 1)` index result: the first index carrying a maximal
logit among the 10 class scores. -/
def torchMax (f : Fin 10 → Int) : Fin 10 :=
  argmaxAux f (List.finRange 10) ⟨0, by decide⟩

/-- The multipart file of a `/predict` request: a client-supplied filename
and the uploaded bytes, which either decode as an image (`some img`) or make
`Image.open` raise (`none`). -/
structure FileUpload where
  filename : List Char
  content : Option Image
deriving DecidableEq, Repr

/-- A `/predict` request: the multipart field `image`, possibly absent. -/
structure PredictReq where
  image : Option FileUpload
deriving DecidableEq, Repr

/-- The 200-response body of `/predict` (`app.py` lines 149-155). -/
structure PredictBody where
  result : String
  definition : String
  color : String
  healthy : Bool
  image_url : String
deriving DecidableEq, Repr

/-- The `/predict` route (`app.py` lines 123-155).  `scores` is the frozen
trained model's logit function; `sec` is werkzeug's `secure_filename`
sanitizer, used only for the stored name echoed in `image_url`. -/
def predict (scores : Image → Fin 10 → Int) (sec : List Char → List Char)
    (req : PredictReq) : Resp PredictBody :=
  match req.image with
  | none => .err 400 "No image uploaded"
  | some file =>
    if ¬ allowed_file file.filename then .err 400 "Unsupported file type"
    else
      match file.content with
      | none => .crash
      | some img =>
        let predicted := torchMax (scores img)
        let predicted_class := classes.get (Fin.cast (by decide) predicted)
        let info := disease_info_get predicted_class
        .ok ⟨predicted_class, info.definition, info.color,
             info.health_status == "Healthy",
             "/static/uploads/" ++ String.mk (sec file.filename)⟩

/-- JSON body of `/register`; `none` marks an absent key. -/
structure RegisterReq where
  name : Option String
  email : Option String
  password : Option String
  q1 : Option String
  q2 : Option String
deriving DecidableEq, Repr

/-- The `/register` route (`app.py` lines 157-173).  Key accesses follow the
source's evaluation order: `data['email']` (the duplicate lookup), then
`data['password']` (hashing), then the remaining fields of the inserted
document; a missing key raises `KeyError` (`crash`).  `salt` is the salt
drawn by `gensalt`, `now` is `datetime.utcnow()`. -/
def register (st : Store) (req : RegisterReq) (salt : Nat) (now : Nat) :
    Resp String × Store :=
  match req.email with
  | none => (.crash, st)
  | some email =>
    if (find_one st (some email)).isSome then
      (.err 400 "Email already exists", st)
    else
      match req.password with
      | none => (.crash, st)
      | some pw =>
        match req.name, req.q1, req.q2 with
        | some nm, some a1, some a2 =>
          (.ok "Registered successfully",
           ⟨st.recs ++ [⟨st.nextId, nm, email, hashpw pw salt, a1, a2, now⟩],
            st.nextId + 1⟩)
        | _, _, _ => (.crash, st)

/-- JSON body of `/login`. -/
structure LoginReq where
  email : Option String
  password : Option String
deriving DecidableEq, Repr

/-- The `/login` route (`app.py` lines 175-191).  `not user or not
bcrypt.checkpw(data['password'], ...)` short-circuits: an unknown email is a
401 without touching `data['password']`, while a known email with the
`password` key absent raises `KeyError`.  On success the issued token carries
`userId = str(user['_id'])`, the user's name and `exp = now + 2h`, signed
with the shared secret. -/
def login (st : Store) (req : LoginReq) (secret : String) (now : Nat) :
    Resp (TokenStr × String) :=
  match req.email with
  | none => .crash
  | some email =>
    match find_one st (some email) with
    | none => .err 401 "Invalid email or password"
    | some user =>
      match req.password with
      | none => .crash
      | some pw =>
        if ¬ checkpw pw user.password then .err 401 "Invalid email or password"
        else .ok (.signed ⟨toString user._id, user.name, now + 7200⟩ secret,
                  user.name)

/-- JSON body of `/forgot-password`; the route reads every field with
`data.get(...)`, so absent keys become `None` rather than raising. -/
structure ForgotReq where
  email : Option String
  q1 : Option String
  q2 : Option String
  newPass : Option String
deriving DecidableEq, Repr

/-- The `/forgot-password` route (`app.py` lines 193-210).  `user['q1'] != q1`
compares the stored plaintext answer with the supplied value (a `None` from a
missing key never equals a stored string).  When both answers match, the
password of the first record with that email is replaced by a fresh hash of
`newPass`; a matching request with `newPass` absent raises on
`None.encode()`. -/
def forgot_password (st : Store) (req : ForgotReq) (salt : Nat) :
    Resp String × Store :=
  match find_one st req.email with
  | none => (.err 404 "User not found", st)
  | some user =>
    if some user.q1 ≠ req.q1 ∨ some user.q2 ≠ req.q2 then
      (.err 401 "Security answers do not match", st)
    else
      match req.newPass with
      | none => (.crash, st)
      | some p =>
        (.ok "Password updated successfully",
         ⟨update_one_password st.recs user.email (hashpw p salt), st.nextId⟩)

/-- JSON body of `/delete`. -/
structure DeleteReq where
  email : Option String
  password : Option String
deriving DecidableEq, Repr

/-- Python truthiness of an optional string field: `None` and `""` are
falsy. -/
def falsyStr : Option String → Bool
  | none => true
  | some s => s == ""

/-- The `/delete` route (`app.py` lines 212-224): a missing body or a falsy
`email`/`password` field is a 400; unknown email or failed password check is
a 401; otherwise the first record with that email is deleted by its `_id`. -/
def delete_account (st : Store) (body : Option DeleteReq) :
    Resp String × Store :=
  match body with
  | none => (.err 400 "Email and password required", st)
  | some req =>
    if falsyStr req.email || falsyStr req.password then
      (.err 400 "Email and password required", st)
    else
      match req.email, req.password with
      | some email, some pw =>
        match find_one st (some email) with
        | none => (.err 401 "Invalid email or password", st)
        | some user =>
          if ¬ checkpw pw user.password then
            (.err 401 "Invalid email or password", st)
          else
            (.ok "Account deleted successfully",
             ⟨delete_one_id st.recs user._id, st.nextId⟩)
      | _, _ => (.err 400 "Email and password required", st)

/-- The projection `/users` applies to each record: `find({}, {"password": 0})`
followed by `user['_id'] = str(user['_id'])` — every field except the
password, with the identifier rendered as text. -/
structure PublicUser where
  id : String
  name : String
  email : String
  q1 : String
  q2 : String
  createdAt : Nat
deriving DecidableEq, Repr

/-- Field-wise projection of a stored record to its `/users` representation. -/
def stripPassword (u : UserRec) : PublicUser :=
  ⟨toString u._id, u.name, u.email, u.q1, u.q2, u.createdAt⟩

/-- The 200-response body of `/users`. -/
structure UsersBody where
  count : Nat
  users : List PublicUser
deriving DecidableEq, Repr

/-- The `/users` route with its `login_required` decorator (`app.py` lines
45-58 and 226-232): the `Authorization` header is taken raw; absence is a
401, a failed decode is a 403 (expired or invalid), and on success every
record is listed without its password. -/
def get_users (st : Store) (authz : Option TokenStr) (secret : String)
    (now : Nat) : Resp UsersBody :=
  match authz with
  | none => .err 401 "Token missing"
  | some t =>
    match jwt_decode t secret now with
    | .expired => .err 403 "Token expired"
    | .invalid => .err 403 "Invalid token"
    | .ok _ => .ok ⟨st.recs.length, st.recs.map stripPassword⟩

/-! ### Helper lemmas -/

lemma argmaxAux_le (f : Fin 10 → Int) :
    ∀ (l : List (Fin 10)) (best : Fin 10), f best ≤ f (argmaxAux f l best) := by
  intro l
  induction l with
  | nil => intro best; simp [argmaxAux]
  | cons i rest ih =>
    intro best
    simp only [argmaxAux]
    by_cases h : f best < f i
    · simp only [h, if_pos]
      exact le_trans (le_of_lt h) (ih i)
    · simp only [h, if_neg, not_false_iff]
      exact ih best

lemma argmaxAux_mem (f : Fin 10 → Int) :
    ∀ (l : List (Fin 10)) (best : Fin 10) (i : Fin 10), i ∈ l →
      f i ≤ f (argmaxAux f l best) := by
  intro l
  induction l with
  | nil => intro best i hi; simp at hi
  | cons j rest ih =>
    intro best i hi
    rcases List.mem_cons.mp hi with h | h
    · rw [h]
      simp only [argmaxAux]
      by_cases hj : f best < f j
      · rw [if_pos hj]
        exact argmaxAux_le f rest j
      · rw [if_neg hj]
        exact le_trans (le_of_not_lt hj) (argmaxAux_le f rest best)
    · simp only [argmaxAux]
      exact ih _ i h

lemma torchMax_maximal (f : Fin 10 → Int) (i : Fin 10) : f i ≤ f (torchMax f) :=
  argmaxAux_mem f (List.finRange 10) ⟨0, by decide⟩ i (List.mem_finRange i)

lemma find?_split {α : Type} {p : α → Bool} {l : List α} {u : α}
    (h : l.find? p = some u) :
    p u = true ∧ ∃ pre suf, l = pre ++ u :: suf ∧ ∀ v ∈ pre, p v = false := by
  induction l with
  | nil => simp [List.find?] at h
  | cons a rest ih =>
    by_cases ha : p a
    · rw [List.find?_cons_of_pos _ ha] at h
      cases h
      exact ⟨ha, [], rest, rfl, by simp⟩
    · rw [List.find?_cons_of_neg _ (by simpa using ha)] at h
      obtain ⟨hu, pre, suf, hl, hpre⟩ := ih h
      refine ⟨hu, a :: pre, suf, by simp [hl], ?_⟩
      intro v hv
      rcases List.mem_cons.mp hv with h | h
      · subst h; simpa using ha
      · exact hpre v h

lemma find?_none_of_split {α : Type} {p : α → Bool} {pre suf : List α}
    (hpre : ∀ v ∈ pre, p v = false) (hsuf : ∀ v ∈ suf, p v = false) :
    (pre ++ suf).find? p = none := by
  rw [List.find?_eq_none]
  intro x hx
  rcases List.mem_append.mp hx with h | h
  · simp [hpre x h]
  · simp [hsuf x h]

lemma update_one_password_append (pre suf : List UserRec) (u : UserRec)
    (h : BHash) (hpre : ∀ v ∈ pre, v.email ≠ u.email) :
    update_one_password (pre ++ u :: suf) u.email h =
      pre ++ { u with password := h } :: suf := by
  induction pre with
  | nil => simp [update_one_password]
  | cons a rest ih =>
    have ha : a.email ≠ u.email := hpre a (by simp)
    simp only [List.cons_append, update_one_password, if_neg ha]
    exact congrArg (List.cons a) (ih (fun v hv => hpre v (by simp [hv])))

lemma delete_one_id_append (pre suf : List UserRec) (u : UserRec)
    (hpre : ∀ v ∈ pre, v._id ≠ u._id) :
    delete_one_id (pre ++ u :: suf) u._id = pre ++ suf := by
  induction pre with
  | nil => simp [delete_one_id]
  | cons a rest ih =>
    have ha : a._id ≠ u._id := hpre a (by simp)
    simp only [List.cons_append, delete_one_id, if_neg ha]
    exact congrArg (List.cons a) (ih (fun v hv => hpre v (by simp [hv])))

lemma find_one_none (st : Store) : find_one st none = none := by
  rw [find_one, List.find?_eq_none]
  intro u _
  simp

lemma takeWhile_all_append {α : Type} (p : α → Bool) (l t : List α) (x : α)
    (hl : ∀ a ∈ l, p a = true) (hx : p x = false) :
    (l ++ x :: t).takeWhile p = l := by
  induction l with
  | nil => simp [List.takeWhile_cons, hx]
  | cons a rest ih =>
    have ha : p a = true := hl a (by simp)
    rw [List.cons_append, List.takeWhile_cons, if_pos ha,
        ih (fun b hb => hl b (by simp [hb]))]

lemma dropWhile_dot {r : List Char} (h : '.' ∈ r) :
    ∃ s, r.dropWhile notDot = '.' :: s := by
  induction r with
  | nil => simp at h
  | cons a rest ih =>
    by_cases ha : a = '.'
    · subst ha
      exact ⟨rest, by simp [List.dropWhile_cons, notDot]⟩
    · have hmem : '.' ∈ rest := by
        rcases List.mem_cons.mp h with h | h
        · exact absurd h.symm ha
        · exact h
      obtain ⟨s, hs⟩ := ih hmem
      exact ⟨s, by simp only [List.dropWhile_cons]; simpa [notDot, ha] using hs⟩

/-- The specification's reading of the extension check: the filename splits
as `pre ++ '.' :: ext` where `ext` is the part after the last dot (so it
contains no dot itself) and `ext` lowercased is an allowed extension. -/
def AllowedSpec (f : List Char) : Prop :=
  ∃ pre ext, f = pre ++ '.' :: ext ∧ '.' ∉ ext ∧
    ALLOWED_EXTENSIONS.contains (ext.map Char.toLower) = true

lemma split_at_last_dot {f : List Char} (h : '.' ∈ f) :
    ∃ pre, f = pre ++ '.' :: afterLastDot f ∧ '.' ∉ afterLastDot f := by
  have hr : '.' ∈ f.reverse := List.mem_reverse.mpr h
  obtain ⟨s, hs⟩ := dropWhile_dot hr
  have hsplit : f.reverse = f.reverse.takeWhile notDot ++ '.' :: s := by
    conv_lhs => rw [← List.takeWhile_append_dropWhile notDot f.reverse]
    rw [hs]
  refine ⟨s.reverse, ?_, ?_⟩
  · conv_lhs => rw [← List.reverse_reverse f, hsplit]
    show (f.reverse.takeWhile notDot ++ '.' :: s).reverse
        = s.reverse ++ '.' :: (f.reverse.takeWhile notDot).reverse
    rw [List.reverse_append, List.reverse_cons, List.append_assoc,
        List.singleton_append]
  · intro hd
    have := List.mem_takeWhile_imp (List.mem_reverse.mp hd)
    simp [notDot] at this

lemma afterLastDot_append (pre ext : List Char) (hext : '.' ∉ ext) :
    afterLastDot (pre ++ '.' :: ext) = ext := by
  show ((pre ++ '.' :: ext).reverse.takeWhile notDot).reverse = ext
  rw [List.reverse_append, List.reverse_cons, List.append_assoc,
      List.singleton_append,
      takeWhile_all_append notDot ext.reverse pre.reverse '.'
        (fun a ha => by
          have hmem : a ∈ ext := List.mem_reverse.mp ha
          simp only [notDot, ne_eq, decide_eq_true_eq]
          intro hEq
          exact hext (hEq ▸ hmem))
        (by simp [notDot]),
      List.reverse_reverse]

/-- C9: `allowed_file` accepts a filename iff it contains a dot and the
lowercased substring after the last dot is `png`, `jpg` or `jpeg`; dotless
names are rejected, the comparison is case-insensitive (`leaf.PNG` passes),
and only the final extension matters (`a.png.exe` fails, `a.exe.png`
passes). -/
theorem allowed_file_characterization :
    (∀ f, allowed_file f = true ↔ AllowedSpec f) ∧
    allowed_file "leaf.PNG".data = true ∧
    allowed_file "a.png.exe".data = false ∧
    allowed_file "a.exe.png".data = true ∧
    (∀ f, f.contains '.' = false → allowed_file f = false) := by
  refine ⟨?_, by decide, by decide, by decide, ?_⟩
  · intro f
    constructor
    · intro h
      rw [allowed_file, Bool.and_eq_true] at h
      have hdot : '.' ∈ f := by simpa using h.1
      obtain ⟨pre, hf, hnd⟩ := split_at_last_dot hdot
      exact ⟨pre, afterLastDot f, hf, hnd, h.2⟩
    · rintro ⟨pre, ext, rfl, hnd, hext⟩
      rw [allowed_file, Bool.and_eq_true]
      refine ⟨by simp, ?_⟩
      rw [afterLastDot_append pre ext hnd]
      exact hext
  · intro f h
    rw [allowed_file, h, Bool.false_and]

/-- C9 witness: concrete instances of both hypothesis-bearing parts —
a dotless filename is rejected, and an accepted filename satisfies the
specification-side characterization. -/
theorem allowed_file_characterization_witness :
    allowed_file "noext".data = false ∧ AllowedSpec "x.jpg".data :=
  ⟨allowed_file_characterization.2.2.2.2 "noext".data (by decide),
   (allowed_file_characterization.1 "x.jpg".data).mp (by decide)⟩

lemma disease_info_find (c : String) (hc : c ∈ classes) :
    disease_info.find? (fun p => p.1 == c) = some (c, disease_info_get c) := by
  fin_cases hc <;> rfl

/-- C1 (amended): a `/predict` request without the multipart `image` field is
a 400, a disallowed extension is a 400, and otherwise — provided the uploaded
bytes decode as an image — the response is 200 with `result` one of the 10
labels, `definition` and `color` equal to the static `disease_info` entry for
that label, and `healthy` true exactly when that entry's `health_status` is
`Healthy`.  (An upload passing the extension check whose bytes do not decode
makes `Image.open` raise, so the response is a 500, not a 200; see the
counterexample.) -/
theorem predict_contract (scores : Image → Fin 10 → Int)
    (sec : List Char → List Char) :
    (predict scores sec ⟨none⟩ = .err 400 "No image uploaded") ∧
    (∀ file, allowed_file file.filename = false →
      predict scores sec ⟨some file⟩ = .err 400 "Unsupported file type") ∧
    (∀ fn img, allowed_file fn = true →
      ∃ b e, predict scores sec ⟨some ⟨fn, some img⟩⟩ = .ok b ∧
        b.result ∈ classes ∧
        disease_info.find? (fun p => p.1 == b.result) = some (b.result, e) ∧
        b.definition = e.definition ∧ b.color = e.color ∧
        (b.healthy = true ↔ e.health_status = "Healthy")) := by
  refine ⟨rfl, ?_, ?_⟩
  · intro file h
    simp [predict, h]
  · intro fn img h
    have hmem : classes.get (Fin.cast (by decide) (torchMax (scores img))) ∈ classes :=
      List.get_mem classes (Fin.cast (by decide) (torchMax (scores img))).val
        (Fin.cast (by decide) (torchMax (scores img))).isLt
    refine ⟨⟨classes.get (Fin.cast (by decide) (torchMax (scores img))),
            (disease_info_get (classes.get (Fin.cast (by decide) (torchMax (scores img))))).definition,
            (disease_info_get (classes.get (Fin.cast (by decide) (torchMax (scores img))))).color,
            (disease_info_get (classes.get (Fin.cast (by decide) (torchMax (scores img))))).health_status == "Healthy",
            "/static/uploads/" ++ String.mk (sec fn)⟩,
          disease_info_get (classes.get (Fin.cast (by decide) (torchMax (scores img)))),
          ?_, hmem, disease_info_find _ hmem, rfl, rfl, ?_⟩
    · simp [predict, h]
    · simp [beq_iff_eq]

/-- C1 witness: the unsupported-extension and success branches at concrete
inputs. -/
theorem predict_contract_witness :
    (predict (fun _ i => (i.val : Int)) id ⟨some ⟨"leaf.txt".data, some 0⟩⟩ =
      .err 400 "Unsupported file type") ∧
    (∃ b e, predict (fun _ i => (i.val : Int)) id
          ⟨some ⟨"leaf.jpg".data, some 0⟩⟩ = .ok b ∧
        b.result ∈ classes ∧
        disease_info.find? (fun p => p.1 == b.result) = some (b.result, e) ∧
        b.definition = e.definition ∧ b.color = e.color ∧
        (b.healthy = true ↔ e.health_status = "Healthy")) :=
  ⟨(predict_contract (fun _ i => (i.val : Int)) id).2.1 ⟨"leaf.txt".data, some 0⟩
      (by decide),
   (predict_contract (fun _ i => (i.val : Int)) id).2.2 "leaf.jpg".data 0
      (by decide)⟩

/-- C1 counterexample: a request with the `image` field present and an
allowed extension whose bytes do not decode as an image yields an unhandled
exception (HTTP 500), not the 200 the claim requires for every request that
passes the two 400 checks. -/
theorem predict_undecodable_counterexample :
    allowed_file "leaf.png".data = true ∧
    (predict (fun _ _ => 0) id ⟨some ⟨"leaf.png".data, none⟩⟩).status = 500 ∧
    (predict (fun _ _ => 0) id ⟨some ⟨"leaf.png".data, none⟩⟩).status ≠ 200 :=
  ⟨by decide, rfl, by decide⟩

/-- C8: classification is a pure argmax over the frozen logits — any two
`/predict` successes on the same decoded image return the same label, and
that label is the class of the first maximal logit, whose score is greater
than or equal to every class score. -/
theorem predict_deterministic_argmax (scores : Image → Fin 10 → Int)
    (sec : List Char → List Char) (img : Image) (fn₁ fn₂ : List Char)
    (b₁ b₂ : PredictBody)
    (h₁ : predict scores sec ⟨some ⟨fn₁, some img⟩⟩ = .ok b₁)
    (h₂ : predict scores sec ⟨some ⟨fn₂, some img⟩⟩ = .ok b₂) :
    b₁.result = b₂.result ∧
    b₁.result = classes.get (Fin.cast (by decide) (torchMax (scores img))) ∧
    ∀ i : Fin 10, scores img i ≤ scores img (torchMax (scores img)) := by
  have key : ∀ (fn : List Char) (b : PredictBody),
      predict scores sec ⟨some ⟨fn, some img⟩⟩ = .ok b →
      b.result = classes.get (Fin.cast (by decide) (torchMax (scores img))) := by
    intro fn b hb
    by_cases hA : allowed_file fn
    · simp [predict, hA] at hb
      exact (congrArg PredictBody.result hb).symm
    · simp [predict, hA] at hb
  exact ⟨(key fn₁ b₁ h₁).trans (key fn₂ b₂ h₂).symm, key fn₁ b₁ h₁,
         fun i => torchMax_maximal (scores img) i⟩

/-- C8 witness: two concrete uploads with different filenames but the same
decoded image produce the same label. -/
theorem predict_deterministic_argmax_witness :
    (⟨"Corn_Common_Rust", "Red-brown pustules on corn leaves.", "red", false,
      "/static/uploads/a.jpg"⟩ : PredictBody).result =
    (⟨"Corn_Common_Rust", "Red-brown pustules on corn leaves.", "red", false,
      "/static/uploads/b.jpg"⟩ : PredictBody).result :=
  (predict_deterministic_argmax (fun _ i => (i.val : Int)) id 0 "a.jpg".data
    "b.jpg".data _ _ (by decide) (by decide)).1

/-- C2: `/users` without an `Authorization` header is a 401; with the raw
header value an expired token (signed with the shared secret, `exp` past) it
is a 403; with a malformed string or a token signed under a different secret
it is a 403; and with a valid unexpired token signed with the shared secret
it is a 200 whose `count` is the number of records and whose `users` lists
every record with the password omitted. -/
theorem get_users_auth (st : Store) (secret : String) (now : Nat) :
    get_users st none secret now = .err 401 "Token missing" ∧
    (∀ c : Claims, c.exp < now →
      get_users st (some (.signed c secret)) secret now =
        .err 403 "Token expired") ∧
    (∀ s, get_users st (some (.garbage s)) secret now =
        .err 403 "Invalid token") ∧
    (∀ (c : Claims) (s : String), s ≠ secret →
      get_users st (some (.signed c s)) secret now =
        .err 403 "Invalid token") ∧
    (∀ c : Claims, now ≤ c.exp →
      get_users st (some (.signed c secret)) secret now =
        .ok ⟨st.recs.length, st.recs.map stripPassword⟩) := by
  refine ⟨rfl, ?_, fun s => rfl, ?_, ?_⟩
  · intro c hc
    simp [get_users, jwt_decode, hc]
  · intro c s hs
    simp [get_users, jwt_decode, hs]
  · intro c hc
    simp [get_users, jwt_decode, Nat.not_lt.mpr hc]

/-- C2 witness: the expired, invalid and valid branches at concrete inputs. -/
theorem get_users_auth_witness :
    get_users ⟨[], 0⟩ (some (.signed ⟨"1", "n", 5⟩ "k")) "k" 9 =
      .err 403 "Token expired" ∧
    get_users ⟨[], 0⟩ (some (.signed ⟨"1", "n", 5⟩ "bad")) "k" 3 =
      .err 403 "Invalid token" ∧
    get_users ⟨[], 0⟩ (some (.signed ⟨"1", "n", 5⟩ "k")) "k" 3 = .ok ⟨0, []⟩ :=
  ⟨(get_users_auth ⟨[], 0⟩ "k" 9).2.1 ⟨"1", "n", 5⟩ (by decide),
   (get_users_auth ⟨[], 0⟩ "k" 3).2.2.2.1 ⟨"1", "n", 5⟩ "bad" (by decide),
   (get_users_auth ⟨[], 0⟩ "k" 3).2.2.2.2 ⟨"1", "n", 5⟩ (by decide)⟩

/-- C5: every token issued by a successful `/login` carries the claims
`userId = str(user._id)`, the user's name, and `exp` exactly two hours after
issuance; and `/users` accepts that token whenever the current time is at
most its expiry, for any store state whatsoever — including stores in which
the account no longer exists, since the decorator performs no store lookup. -/
theorem login_token_claims (st : Store) (req : LoginReq) (secret : String)
    (now : Nat) (tok : TokenStr) (nm : String)
    (h : login st req secret now = .ok (tok, nm)) :
    ∃ user, find_one st req.email = some user ∧
      tok = .signed ⟨toString user._id, user.name, now + 7200⟩ secret ∧
      nm = user.name ∧
      ∀ (st2 : Store) (t2 : Nat), t2 ≤ now + 7200 →
        get_users st2 (some tok) secret t2 =
          .ok ⟨st2.recs.length, st2.recs.map stripPassword⟩ := by
  cases hE : req.email with
  | none => simp [login, hE] at h
  | some email =>
    cases hU : find_one st (some email) with
    | none => simp [login, hE, hU] at h
    | some user =>
      cases hP : req.password with
      | none => simp [login, hE, hU, hP] at h
      | some pw =>
        by_cases hck : checkpw pw user.password
        · simp [login, hE, hU, hP, hck] at h
          obtain ⟨htok, hnm⟩ := h
          refine ⟨user, rfl, htok.symm, hnm.symm, ?_⟩
          intro st2 t2 ht2
          rw [← htok]
          simp [get_users, jwt_decode, Nat.not_lt.mpr ht2]
        · simp [login, hE, hU, hP, hck] at h

/-- C5 witness: a concrete login issues the expected token, which `/users`
then accepts against an unrelated (here empty) store before expiry. -/
theorem login_token_claims_witness :
    ∃ user,
      find_one ⟨[⟨7, "alice", "a@b", ⟨"pw", 3⟩, "x", "y", 0⟩], 8⟩
        (LoginReq.mk (some "a@b") (some "pw")).email = some user ∧
      TokenStr.signed ⟨"7", "alice", 7300⟩ "k" =
        .signed ⟨toString user._id, user.name, 100 + 7200⟩ "k" ∧
      "alice" = user.name ∧
      ∀ (st2 : Store) (t2 : Nat), t2 ≤ 100 + 7200 →
        get_users st2 (some (TokenStr.signed ⟨"7", "alice", 7300⟩ "k")) "k" t2 =
          .ok ⟨st2.recs.length, st2.recs.map stripPassword⟩ :=
  login_token_claims ⟨[⟨7, "alice", "a@b", ⟨"pw", 3⟩, "x", "y", 0⟩], 8⟩
    ⟨some "a@b", some "pw"⟩ "k" 100 (.signed ⟨"7", "alice", 7300⟩ "k") "alice"
    (by decide)

/-- C10: for any holder of a valid token, `/users` returns every record
projected to exactly its textual `_id`, name, email, plaintext security
answers `q1` and `q2`, and `createdAt` — only the password is omitted. -/
theorem get_users_listing (st : Store) (c : Claims) (secret : String)
    (now : Nat) (h : now ≤ c.exp) :
    ∃ b, get_users st (some (.signed c secret)) secret now = .ok b ∧
      b.count = st.recs.length ∧
      b.users = st.recs.map stripPassword ∧
      ∀ u ∈ st.recs, stripPassword u =
        ⟨toString u._id, u.name, u.email, u.q1, u.q2, u.createdAt⟩ := by
  refine ⟨⟨st.recs.length, st.recs.map stripPassword⟩, ?_, rfl, rfl, ?_⟩
  · simp [get_users, jwt_decode, Nat.not_lt.mpr h]
  · intro u _
    rfl

/-- C10 witness: the listing of a concrete two-record store under a valid
token. -/
theorem get_users_listing_witness :
    ∃ b, get_users ⟨[⟨1, "a", "a@b", ⟨"p", 0⟩, "r1", "r2", 11⟩,
                     ⟨2, "b", "b@c", ⟨"q", 1⟩, "s1", "s2", 12⟩], 3⟩
        (some (.signed ⟨"1", "a", 50⟩ "k")) "k" 50 = .ok b ∧
      b.count = 2 ∧
      b.users = [⟨"1", "a", "a@b", "r1", "r2", 11⟩, ⟨"2", "b", "b@c", "s1", "s2", 12⟩] ∧
      ∀ u ∈ [⟨1, "a", "a@b", ⟨"p", 0⟩, "r1", "r2", 11⟩,
             ⟨2, "b", "b@c", ⟨"q", 1⟩, "s1", "s2", 12⟩],
        stripPassword u = ⟨toString u._id, u.name, u.email, u.q1, u.q2, u.createdAt⟩ :=
  get_users_listing ⟨[⟨1, "a", "a@b", ⟨"p", 0⟩, "r1", "r2", 11⟩,
                      ⟨2, "b", "b@c", ⟨"q", 1⟩, "s1", "s2", 12⟩], 3⟩
    ⟨"1", "a", 50⟩ "k" 50 (by decide)

/-- C3: `/register` with an email that already has a record is a 400 conflict
leaving the store unchanged; with a fresh email and all fields present,
exactly one record `{name, email, hashed password, q1, q2, createdAt}` is
appended under the next store-assigned identifier, and the response is a
success message. -/
theorem register_contract (st : Store) (req : RegisterReq) (salt now : Nat) :
    (∀ email, req.email = some email → (find_one st (some email)).isSome = true →
      register st req salt now = (.err 400 "Email already exists", st)) ∧
    (∀ nm email pw a1 a2,
      req = ⟨some nm, some email, some pw, some a1, some a2⟩ →
      find_one st (some email) = none →
      register st req salt now =
        (.ok "Registered successfully",
         ⟨st.recs ++ [⟨st.nextId, nm, email, hashpw pw salt, a1, a2, now⟩],
          st.nextId + 1⟩)) := by
  constructor
  · intro email hE hdup
    simp [register, hE, hdup]
  · rintro nm email pw a1 a2 rfl hfind
    simp [register, hfind]

/-- C3 witness: a duplicate registration conflicts without inserting, and a
fresh registration appends exactly one record. -/
theorem register_contract_witness :
    register ⟨[⟨0, "a", "a@b", ⟨"p", 0⟩, "x", "y", 5⟩], 1⟩
        ⟨some "z", some "a@b", some "q", some "r", some "s"⟩ 2 9 =
      (.err 400 "Email already exists",
       ⟨[⟨0, "a", "a@b", ⟨"p", 0⟩, "x", "y", 5⟩], 1⟩) ∧
    register ⟨[], 0⟩ ⟨some "z", some "a@b", some "q", some "r", some "s"⟩ 2 9 =
      (.ok "Registered successfully",
       ⟨[⟨0, "z", "a@b", hashpw "q" 2, "r", "s", 9⟩], 1⟩) :=
  ⟨(register_contract ⟨[⟨0, "a", "a@b", ⟨"p", 0⟩, "x", "y", 5⟩], 1⟩
      ⟨some "z", some "a@b", some "q", some "r", some "s"⟩ 2 9).1 "a@b" rfl
      (by decide),
   (register_contract ⟨[], 0⟩
      ⟨some "z", some "a@b", some "q", some "r", some "s"⟩ 2 9).2 "z" "a@b" "q"
      "r" "s" rfl (by decide)⟩

/-- C4: `/forgot-password` with an unknown email is a 404 leaving the store
unchanged; with a known email but a mismatch in either stored security answer
(string equality) it is a 401 leaving the store unchanged; and when both
answers match exactly, precisely the matched (first) record's password is
replaced by a fresh hash of `newPass` and the response is a success
message. -/
theorem forgot_password_contract (st : Store) (req : ForgotReq) (salt : Nat) :
    (find_one st req.email = none →
      forgot_password st req salt = (.err 404 "User not found", st)) ∧
    (∀ user, find_one st req.email = some user →
      (some user.q1 ≠ req.q1 ∨ some user.q2 ≠ req.q2) →
      forgot_password st req salt =
        (.err 401 "Security answers do not match", st)) ∧
    (∀ user p, find_one st req.email = some user →
      req.q1 = some user.q1 → req.q2 = some user.q2 → req.newPass = some p →
      ∃ pre suf, st.recs = pre ++ user :: suf ∧
        (∀ v ∈ pre, v.email ≠ user.email) ∧
        forgot_password st req salt =
          (.ok "Password updated successfully",
           ⟨pre ++ { user with password := hashpw p salt } :: suf,
            st.nextId⟩)) := by
  refine ⟨?_, ?_, ?_⟩
  · intro h
    simp [forgot_password, h]
  · intro user hU hmm
    simp only [forgot_password, hU]
    rw [if_pos hmm]
  · intro user p hU h1 h2 hP
    have hU2 := hU
    rw [find_one] at hU2
    obtain ⟨hpu, pre, suf, hrecs, hpre⟩ := find?_split hU2
    have hEq : some user.email = req.email := by simpa using hpu
    have hpre2 : ∀ v ∈ pre, v.email ≠ user.email := by
      intro v hv
      have := hpre v hv
      rw [← hEq] at this
      simpa using this
    have hupd : update_one_password st.recs user.email (hashpw p salt)
        = pre ++ { user with password := hashpw p salt } :: suf := by
      rw [hrecs]
      exact update_one_password_append pre suf user (hashpw p salt) hpre2
    refine ⟨pre, suf, hrecs, hpre2, ?_⟩
    simp [forgot_password, hU, h1, h2, hP, hupd]

/-- A sample stored record, used by concrete witnesses. -/
def sampleUser : UserRec := ⟨1, "a", "a@b", ⟨"p", 0⟩, "ans1", "ans2", 0⟩

/-- A sample one-record store, used by concrete witnesses. -/
def sampleStore : Store := ⟨[sampleUser], 2⟩

/-- C4 witness: the not-found, mismatch and success branches at concrete
inputs. -/
theorem forgot_password_contract_witness :
    forgot_password sampleStore ⟨some "zz", none, none, none⟩ 7 =
      (.err 404 "User not found", sampleStore) ∧
    forgot_password sampleStore ⟨some "a@b", some "ans1", some "wrong", some "np"⟩ 7 =
      (.err 401 "Security answers do not match", sampleStore) ∧
    (∃ pre suf, sampleStore.recs = pre ++ sampleUser :: suf ∧
      (∀ v ∈ pre, v.email ≠ sampleUser.email) ∧
      forgot_password sampleStore ⟨some "a@b", some "ans1", some "ans2", some "np"⟩ 7 =
        (.ok "Password updated successfully",
         ⟨pre ++ { sampleUser with password := hashpw "np" 7 } :: suf,
          sampleStore.nextId⟩)) :=
  ⟨(forgot_password_contract sampleStore ⟨some "zz", none, none, none⟩ 7).1
      (by decide),
   (forgot_password_contract sampleStore
      ⟨some "a@b", some "ans1", some "wrong", some "np"⟩ 7).2.1 sampleUser
      (by decide) (by decide),
   (forgot_password_contract sampleStore
      ⟨some "a@b", some "ans1", some "ans2", some "np"⟩ 7).2.2 sampleUser "np"
      (by decide) rfl rfl rfl⟩

/-- C6: `/delete` with a missing body or a missing (falsy) email/password is
a 400 leaving the store unchanged; with an unknown email or a failing
password check it is a 401 leaving the store unchanged; otherwise — under the
store invariants that `_id`s and emails are unique — the matched record is
removed and every later `/login` with that email (any password, in particular
the former one) fails with a 401. -/
theorem delete_account_contract (st : Store) :
    (delete_account st none = (.err 400 "Email and password required", st)) ∧
    (∀ req : DeleteReq, req.email = none ∨ req.password = none →
      delete_account st (some req) =
        (.err 400 "Email and password required", st)) ∧
    (∀ (req : DeleteReq) (email pw : String), req.email = some email →
      req.password = some pw → email ≠ "" → pw ≠ "" →
      find_one st (some email) = none →
      delete_account st (some req) =
        (.err 401 "Invalid email or password", st)) ∧
    (∀ (req : DeleteReq) (email pw : String) (user : UserRec),
      req.email = some email → req.password = some pw → email ≠ "" → pw ≠ "" →
      find_one st (some email) = some user →
      checkpw pw user.password = false →
      delete_account st (some req) =
        (.err 401 "Invalid email or password", st)) ∧
    (∀ (req : DeleteReq) (email pw : String) (user : UserRec),
      req.email = some email → req.password = some pw → email ≠ "" → pw ≠ "" →
      find_one st (some email) = some user →
      checkpw pw user.password = true →
      st.recs.Pairwise (fun a b => a._id ≠ b._id) →
      st.recs.Pairwise (fun a b => a.email ≠ b.email) →
      ∃ pre suf, st.recs = pre ++ user :: suf ∧
        delete_account st (some req) =
          (.ok "Account deleted successfully", ⟨pre ++ suf, st.nextId⟩) ∧
        ∀ (pw2 secret : String) (now : Nat),
          login ⟨pre ++ suf, st.nextId⟩ ⟨some email, some pw2⟩ secret now =
            .err 401 "Invalid email or password") := by
  refine ⟨rfl, ?_, ?_, ?_, ?_⟩
  · intro req h
    rcases h with h | h <;> simp [delete_account, falsyStr, h]
  · intro req email pw hE hP hne hnp hfind
    simp [delete_account, falsyStr, hE, hP, hne, hnp, hfind]
  · intro req email pw user hE hP hne hnp hfind hck
    simp [delete_account, falsyStr, hE, hP, hne, hnp, hfind, hck]
  · intro req email pw user hE hP hne hnp hfind hck hids hemails
    have hfind2 := hfind
    rw [find_one] at hfind2
    obtain ⟨hpu, pre, suf, hrecs, hpre⟩ := find?_split hfind2
    have hueq : user.email = email := by simpa using hpu
    have hidpre : ∀ v ∈ pre, v._id ≠ user._id := by
      have h3 := (List.pairwise_append.mp (hrecs ▸ hids)).2.2
      intro v hv
      exact h3 v hv user (by simp)
    have hdel : delete_one_id st.recs user._id = pre ++ suf := by
      rw [hrecs]
      exact delete_one_id_append pre suf user hidpre
    have hsuf : ∀ v ∈ suf, v.email ≠ email := by
      have h2 := (List.pairwise_append.mp (hrecs ▸ hemails)).2.1
      intro v hv hc
      exact (List.pairwise_cons.mp h2).1 v hv (hueq.trans hc.symm)
    have hnone : (pre ++ suf).find? (fun u => some u.email == some email) = none := by
      apply find?_none_of_split
      · intro v hv
        have := hpre v hv
        simpa using this
      · intro v hv
        simpa using hsuf v hv
    refine ⟨pre, suf, hrecs, ?_, ?_⟩
    · simp [delete_account, falsyStr, hE, hP, hne, hnp, hfind, hck, hdel]
    · intro pw2 secret now
      have hf : find_one ⟨pre ++ suf, st.nextId⟩ (some email) = none := by
        rw [find_one]
        exact hnone
      simp [login, hf]

/-- C6 witness: deleting the sample account succeeds and a later login with
its former credentials fails. -/
theorem delete_account_contract_witness :
    ∃ pre suf, sampleStore.recs = pre ++ sampleUser :: suf ∧
      delete_account sampleStore (some ⟨some "a@b", some "p"⟩) =
        (.ok "Account deleted successfully", ⟨pre ++ suf, sampleStore.nextId⟩) ∧
      ∀ (pw2 secret : String) (now : Nat),
        login ⟨pre ++ suf, sampleStore.nextId⟩ ⟨some "a@b", some pw2⟩ secret now =
          .err 401 "Invalid email or password" :=
  (delete_account_contract sampleStore).2.2.2.2 ⟨some "a@b", some "p"⟩ "a@b" "p"
    sampleUser rfl rfl (by decide) (by decide) (by decide) (by decide)
    (by simp [sampleStore]) (by simp [sampleStore])

/-- C7 counterexample: a `/login` request whose JSON body lacks the `email`
field raises an unhandled `KeyError`, so the response is a 500, not the 400
`{error: ...}` the claim asserts for every missing required field. -/
theorem validation_400_counterexample :
    login ⟨[], 0⟩ ⟨none, some "x"⟩ "k" 0 = .crash ∧
    (login ⟨[], 0⟩ ⟨none, some "x"⟩ "k" 0).status = 500 ∧
    (login ⟨[], 0⟩ ⟨none, some "x"⟩ "k" 0).status ≠ 400 :=
  ⟨rfl, rfl, by decide⟩

/-- C7 (amended): only `/delete` validates field presence and returns a 400
`{error}` body.  `/register` and `/login` index the JSON dict directly, so a
missing required field raises an unhandled `KeyError` (HTTP 500) — except
when an earlier check answers first: `/register` with a duplicate email
returns the 400 conflict even when other fields are missing, and `/login`
with an unknown email returns 401 even when the password is missing.
`/forgot-password` reads missing fields as null: 404 for the null email, 401
on a (possibly null) answer mismatch, and a 500 only when both answers match
but `newPass` is absent. -/
theorem validation_behavior (st : Store) (salt now : Nat) (secret : String) :
    (∀ req : RegisterReq, req.email = none →
      register st req salt now = (.crash, st)) ∧
    (∀ (req : RegisterReq) (email : String), req.email = some email →
      (find_one st (some email)).isSome = true →
      register st req salt now = (.err 400 "Email already exists", st)) ∧
    (∀ (req : RegisterReq) (email : String), req.email = some email →
      find_one st (some email) = none →
      (req.password = none ∨ req.name = none ∨ req.q1 = none ∨ req.q2 = none) →
      register st req salt now = (.crash, st)) ∧
    (∀ req : LoginReq, req.email = none → login st req secret now = .crash) ∧
    (∀ (req : LoginReq) (email : String), req.email = some email →
      find_one st (some email) = none →
      login st req secret now = .err 401 "Invalid email or password") ∧
    (∀ (req : LoginReq) (email : String) (user : UserRec),
      req.email = some email → find_one st (some email) = some user →
      req.password = none → login st req secret now = .crash) ∧
    (∀ req : ForgotReq, req.email = none →
      forgot_password st req salt = (.err 404 "User not found", st)) ∧
    (∀ (req : ForgotReq) (user : UserRec), find_one st req.email = some user →
      (some user.q1 ≠ req.q1 ∨ some user.q2 ≠ req.q2) →
      forgot_password st req salt =
        (.err 401 "Security answers do not match", st)) ∧
    (∀ (req : ForgotReq) (user : UserRec), find_one st req.email = some user →
      req.q1 = some user.q1 → req.q2 = some user.q2 → req.newPass = none →
      forgot_password st req salt = (.crash, st)) ∧
    (delete_account st none = (.err 400 "Email and password required", st)) ∧
    (∀ req : DeleteReq, req.email = none ∨ req.password = none →
      delete_account st (some req) =
        (.err 400 "Email and password required", st)) := by
  refine ⟨?_, ?_, ?_, ?_, ?_, ?_, ?_, ?_, ?_, rfl, ?_⟩
  · intro req h
    simp [register, h]
  · intro req email hE hdup
    simp [register, hE, hdup]
  · intro req email hE hfind h
    cases hP : req.password with
    | none => simp [register, hE, hfind, hP]
    | some pw =>
      cases hn : req.name <;> cases h1 : req.q1 <;> cases h2 : req.q2 <;>
        simp [register, hE, hfind, hP, hn, h1, h2] <;>
        rcases h with h | h | h | h <;> simp_all
  · intro req h
    simp [login, h]
  · intro req email hE hfind
    simp [login, hE, hfind]
  · intro req email user hE hfind hP
    simp [login, hE, hfind, hP]
  · intro req h
    simp [forgot_password, h, find_one_none]
  · intro req user hU hmm
    simp only [forgot_password, hU]
    rw [if_pos hmm]
  · intro req user hU h1 h2 hP
    simp [forgot_password, hU, h1, h2, hP]
  · intro req h
    rcases h with h | h <;> simp [delete_account, falsyStr, h]

/-- C7 witness: concrete requests exercising the register branches (fresh
email with a missing password crashes; a duplicate email with missing fields
still conflicts with 400), the login branches (unknown email with a missing
password is a 401; known email with a missing password crashes), and the
delete 400. -/
theorem validation_behavior_witness :
    register ⟨[], 0⟩ ⟨some "n", some "e@x", none, some "r", some "s"⟩ 1 2 =
      (.crash, ⟨[], 0⟩) ∧
    register sampleStore ⟨none, some "a@b", none, none, none⟩ 1 2 =
      (.err 400 "Email already exists", sampleStore) ∧
    login ⟨[], 0⟩ ⟨some "ghost@x", none⟩ "k" 0 =
      .err 401 "Invalid email or password" ∧
    login sampleStore ⟨some "a@b", none⟩ "k" 0 = .crash ∧
    delete_account ⟨[], 0⟩ (some ⟨none, some "p"⟩) =
      (.err 400 "Email and password required", ⟨[], 0⟩) :=
  ⟨(validation_behavior ⟨[], 0⟩ 1 2 "k").2.2.1
      ⟨some "n", some "e@x", none, some "r", some "s"⟩ "e@x" rfl (by decide)
      (Or.inl rfl),
   (validation_behavior sampleStore 1 2 "k").2.1
      ⟨none, some "a@b", none, none, none⟩ "a@b" rfl (by decide),
   (validation_behavior ⟨[], 0⟩ 0 0 "k").2.2.2.2.1 ⟨some "ghost@x", none⟩
      "ghost@x" rfl (by decide),
   (validation_behavior sampleStore 0 0 "k").2.2.2.2.2.1 ⟨some "a@b", none⟩
      "a@b" sampleUser rfl (by decide) rfl,
   (validation_behavior ⟨[], 0⟩ 0 0 "k").2.2.2.2.2.2.2.2.2.2 ⟨none, some "p"⟩
      (Or.inl rfl)⟩
